import Mathlib

/-!
Verification of the Findit server (Deno/Hono, KV-store backed lost-and-found
board with messaging).  The definitions below are a shallow embedding of the
request handlers in the server source file (`app.post('/…/conversations')`,
`app.post('/…/messages')`, `app.get('/…/messages/:conversationId')`,
`app.get('/…/conversations')`, `app.patch('/…/items/:id/status')`).

Modelling conventions:
* A JS ISO-8601 timestamp string (`new Date().toISOString()`, millisecond
  precision) is represented by its millisecond value as a `Nat`; the encoding
  is injective and monotone, and the code only ever compares such strings via
  `new Date(s).getTime()`, so this is faithful.
* `Date.now()` and `new Date()` are distinct clock reads; every read that a
  handler performs is an explicit `Nat` argument of the embedded function,
  in source order.
* `crypto.randomUUID()` is an explicit `String` argument (the code imposes
  no constraint on it beyond being some string).
* JS string comparison (`<` on UTF-16 code units, used by `Array.sort()` on
  the two participant ids) is Lean's `String` order; they agree on the
  Basic Multilingual Plane, and ids here are ASCII.
-/

namespace Findit

/-- A user profile as stored under key `user:{id}` at signup. -/
structure User where
  id : String
  email : String
  name : String
deriving DecidableEq

/-- An item as stored under key `item:{id}` by the item-creation handler.
`createdAt` is the ISO timestamp, modelled as milliseconds. -/
structure Item where
  id : String
  type : String
  category : String
  title : String
  description : String
  location : String
  date : String
  imageUrl : Option String
  userId : String
  status : String
  createdAt : Nat
deriving DecidableEq

/-- A conversation as stored under key `conversation:{id}`. -/
structure Conversation where
  id : String
  itemId : String
  participants : List String
  createdAt : Nat
  lastMessageAt : Nat
deriving DecidableEq

/-- A message as stored under key `message:{id}`. -/
structure Message where
  id : String
  conversationId : String
  senderId : String
  text : String
  createdAt : Nat
deriving DecidableEq

/-! ### The KV store

`kv_store.tsx` is imported by the server but its source is not part of the
repository snapshot.  Modelled from the spec: `set(key, value)` is an upsert
that overwrites any prior value; `get(key)` returns the stored value or a
not-found signal; `getByPrefix(prefix)` returns all values (not keys) whose
key starts with the prefix, in an order the store does not specify.  We model
each key namespace (`user:`, `item:`, `conversation:`, `message:`,
`userConversation:`, `userItem:`) as an association list from full key to
value; the namespaces use disjoint key prefixes so this split is faithful.
The unspecified `getByPrefix` order is captured by quantifying over
permutations of the scan result where order matters. -/

/-- Character-list prefix test (the key-matching of `getByPrefix`). -/
def charsPre : List Char → List Char → Bool
  | [], _ => true
  | _ :: _, [] => false
  | a :: as, b :: bs => a == b && charsPre as bs

/-- `strStarts p s` holds when string `s` starts with `p`. -/
def strStarts (p s : String) : Bool := charsPre p.data s.data

/-- Modelled from the spec: `kv.get` — the stored value or a not-found
signal. -/
def kvGet (k : String) : List (String × α) → Option α
  | [] => none
  | (k', v) :: rest => if k' == k then some v else kvGet k rest

/-- Modelled from the spec: `kv.set` — upsert, overwrites prior value. -/
def kvSet (k : String) (v : α) : List (String × α) → List (String × α)
  | [] => [(k, v)]
  | (k', v') :: rest =>
      if k' == k then (k, v) :: rest else (k', v') :: kvSet k v rest

/-- Modelled from the spec: `kv.getByPrefix` — all values whose key starts
with the prefix.  This returns them in store order; the store leaves the
order unspecified, so theorems that depend on it quantify over permutations
of this result. -/
def getByPre (p : String) (l : List (String × α)) : List α :=
  (l.filter fun kv => strStarts p kv.fst).map Prod.snd

/-- The persistent state: one association list per key namespace. -/
structure Store where
  users : List (String × User)
  items : List (String × Item)
  conversations : List (String × Conversation)
  messages : List (String × Message)
  userConversations : List (String × String)
  userItems : List (String × String)
deriving DecidableEq

/-- HTTP-level failures the embedded handlers can return. -/
inductive ApiErr where
  | notFound
  | forbidden
deriving DecidableEq

/-! ### POST /conversations -/

/-- Lexicographic comparison of character lists (JS string `<`, i.e. code
unit order; also Lean's `List.lt` on a linear order, see
`charsLt_iff_lex`). -/
def charsLt : List Char → List Char → Bool
  | _, [] => false
  | [], _ :: _ => true
  | a :: as, b :: bs => decide (a < b) || (a == b && charsLt as bs)

/-- Lexicographic string comparison — the comparison JS's default
`Array.sort()` applies to strings. -/
def strLt (a b : String) : Bool := charsLt a.data b.data

/-- `[userId, item.userId].sort()` — JS default sort of the two-element
array, i.e. the pair in lexicographic order. -/
def sortPair (a b : String) : List String :=
  if strLt b a then [b, a] else [a, b]

/-- The conversation id template
`participants[0] + "_" + participants[1] + "_" + itemId`. -/
def convIdOf (p : List String) (itemId : String) : String :=
  (p.headD "") ++ "_" ++ (p.getD 1 "") ++ "_" ++ itemId

/-- The `POST /conversations` handler body (after auth).  `t1` and `t2` are
the two `new Date()` reads that initialise `createdAt` and `lastMessageAt`,
in source order. -/
def createConversation (userId itemId : String) (t1 t2 : Nat) (s : Store) :
    Except ApiErr Conversation × Store :=
  match kvGet ("item:" ++ itemId) s.items with
  | none => (Except.error ApiErr.notFound, s)
  | some item =>
      let participants := sortPair userId item.userId
      let conversationId := convIdOf participants itemId
      match kvGet ("conversation:" ++ conversationId) s.conversations with
      | some existing => (Except.ok existing, s)
      | none =>
          let conv : Conversation :=
            { id := conversationId, itemId := itemId,
              participants := participants, createdAt := t1,
              lastMessageAt := t2 }
          let s' :=
            { s with
              conversations :=
                kvSet ("conversation:" ++ conversationId) conv
                  s.conversations,
              userConversations :=
                kvSet ("userConversation:" ++ item.userId ++ ":" ++
                    conversationId) conversationId
                  (kvSet ("userConversation:" ++ userId ++ ":" ++
                      conversationId) conversationId
                    s.userConversations) }
          (Except.ok conv, s')

/-! ### POST /messages -/

/-- Decimal rendering of a natural number, digit list little-endian, with
explicit fuel so that it is structurally recursive (and hence reduces in the
kernel).  `digitsRevFuel n n` is the digit list of `n`. -/
def digitsRevFuel : Nat → Nat → List Nat
  | 0, _ => []
  | fuel + 1, n => if n = 0 then [] else n % 10 :: digitsRevFuel fuel (n / 10)

/-- Little-endian decimal digits of `n`. -/
def digitsRev (n : Nat) : List Nat := digitsRevFuel n n

/-- The character for one decimal digit. -/
def charOfDigit : Nat → Char
  | 0 => '0' | 1 => '1' | 2 => '2' | 3 => '3' | 4 => '4'
  | 5 => '5' | 6 => '6' | 7 => '7' | 8 => '8' | _ => '9'

/-- JS number-to-string for a nonnegative integer (the `${Date.now()}`
interpolation): its decimal representation. -/
def natStr (n : Nat) : String :=
  if n = 0 then "0" else String.mk ((digitsRev n).reverse.map charOfDigit)

/-- The message id template `${conversationId}:${Date.now()}:${uuid}`. -/
def msgId (conversationId : String) (tNow : Nat) (uuid : String) : String :=
  conversationId ++ ":" ++ natStr tNow ++ ":" ++ uuid

/-- The `POST /messages` handler body (after auth).  `tNow` is the
`Date.now()` read used in the id, `tCreated` the `new Date()` read stored as
`createdAt`, `uuid` the `crypto.randomUUID()` result.  Note the handler
performs no validation of `text` whatsoever. -/
def sendMessage (userId conversationId text : String) (tNow tCreated : Nat)
    (uuid : String) (s : Store) : Except ApiErr Message × Store :=
  match kvGet ("conversation:" ++ conversationId) s.conversations with
  | none => (Except.error ApiErr.notFound, s)
  | some conversation =>
      if conversation.participants.contains userId then
        let messageId := msgId conversationId tNow uuid
        let message : Message :=
          { id := messageId, conversationId := conversationId,
            senderId := userId, text := text, createdAt := tCreated }
        let s' :=
          { s with
            messages := kvSet ("message:" ++ messageId) message s.messages,
            conversations :=
              kvSet ("conversation:" ++ conversationId)
                { conversation with lastMessageAt := message.createdAt }
                s.conversations }
        (Except.ok message, s')
      else (Except.error ApiErr.forbidden, s)

/-! ### GET /messages/:conversationId -/

/-- Insert a message into a list sorted ascending by `createdAt`, after all
entries with a strictly smaller or equal key — together with `sortByCreated`
this models the stable ascending sort
`.sort((a, b) => new Date(a.createdAt).getTime() - new Date(b.createdAt).getTime())`
(ECMAScript `Array.prototype.sort` is stable). -/
def insertByCreated (m : Message) : List Message → List Message
  | [] => [m]
  | x :: xs =>
      if x.createdAt < m.createdAt then x :: insertByCreated m xs
      else m :: x :: xs

/-- Stable sort of messages ascending by `createdAt` (ties keep their scan
order; the comparator never consults the id). -/
def sortByCreated : List Message → List Message
  | [] => []
  | x :: xs => insertByCreated x (sortByCreated xs)

/-- A message as returned by `GET /messages/:conversationId`: the stored
message plus the joined `senderName`. -/
structure MsgView where
  msg : Message
  senderName : String
deriving DecidableEq

/-- The sender-name join: `user?.name || 'Unknown'`. -/
def joinSender (s : Store) (m : Message) : MsgView :=
  { msg := m,
    senderName :=
      match kvGet ("user:" ++ m.senderId) s.users with
      | some u => u.name
      | none => "Unknown" }

/-- The `GET /messages/:conversationId` handler body (after auth), taking
the prefix-scan result `scan` explicitly (the store returns the matching
messages in an unspecified order; `scan` is whatever order it produced). -/
def listMessagesOf (userId conversationId : String) (scan : List Message)
    (s : Store) : Except ApiErr (List MsgView) :=
  match kvGet ("conversation:" ++ conversationId) s.conversations with
  | none => Except.error ApiErr.notFound
  | some conversation =>
      if conversation.participants.contains userId then
        Except.ok ((sortByCreated scan).map (joinSender s))
      else Except.error ApiErr.forbidden

/-- The scan the handler performs:
`kv.getByPrefix('message:' + conversationId + ':')`. -/
def messageScan (conversationId : String) (s : Store) : List Message :=
  getByPre ("message:" ++ conversationId ++ ":") s.messages

/-! ### GET /conversations -/

/-- One element of the `GET /conversations` response:
`{ ...conv, item, otherUser }`.  `item` and `otherUser` are attached exactly
as `kv.get` returned them; a missing record stays `none` — no placeholder is
substituted on this path. -/
structure ConvView where
  conv : Conversation
  item : Option Item
  otherUser : Option User
deriving DecidableEq

/-- The join for one conversation id:  resolve the conversation (dropping it
if absent), attach the item and the other participant
(`participants.find(id => id !== userId)` then `kv.get`). -/
def joinConv (userId : String) (s : Store) (conversationId : String) :
    Option ConvView :=
  match kvGet ("conversation:" ++ conversationId) s.conversations with
  | none => none
  | some conv =>
      let item := kvGet ("item:" ++ conv.itemId) s.items
      let otherUser :=
        (conv.participants.find? fun i => i != userId).bind
          fun otherId => kvGet ("user:" ++ otherId) s.users
      some { conv := conv, item := item, otherUser := otherUser }

/-- Insert into a list sorted descending by `lastMessageAt` (stable). -/
def insertByLastDesc (c : ConvView) : List ConvView → List ConvView
  | [] => [c]
  | x :: xs =>
      if c.conv.lastMessageAt < x.conv.lastMessageAt then
        x :: insertByLastDesc c xs
      else c :: x :: xs

/-- Stable sort descending by `lastMessageAt`
(`sort((a, b) => new Date(b.lastMessageAt) - new Date(a.lastMessageAt))`). -/
def sortByLastDesc : List ConvView → List ConvView
  | [] => []
  | x :: xs => insertByLastDesc x (sortByLastDesc xs)

/-- The `GET /conversations` handler body (after auth), taking the index
scan result (the conversation ids under `userConversation:{userId}:`)
explicitly. -/
def listConversationsOf (userId : String) (idScan : List String)
    (s : Store) : List ConvView :=
  sortByLastDesc (idScan.filterMap (joinConv userId s))

/-- Number of entries stored under a key (1 for a well-formed store when the
key is present, 0 when absent). -/
def countKey (k : String) (l : List (String × α)) : Nat :=
  (l.filter fun kv => kv.fst == k).length

/-! ### PATCH /items/:id/status -/

/-- The `PATCH /items/:id/status` handler body (after auth): resolve the
item, check ownership, spread-update the status (`{ ...item, status }` — no
validation of the `status` string), persist. -/
def updateItemStatus (userId itemId status : String) (s : Store) :
    Except ApiErr Item × Store :=
  match kvGet ("item:" ++ itemId) s.items with
  | none => (Except.error ApiErr.notFound, s)
  | some item =>
      if item.userId == userId then
        let updatedItem := { item with status := status }
        (Except.ok updatedItem,
          { s with items := kvSet ("item:" ++ itemId) updatedItem s.items })
      else (Except.error ApiErr.forbidden, s)

/-! ### Concrete fixtures used by witnesses and counterexamples -/

/-- A sample user. -/
def userA : User := { id := "alice", email := "a@example.com", name := "Alice" }

/-- A second sample user, owner of `item1`. -/
def userB : User := { id := "bob", email := "b@example.com", name := "Bob" }

/-- A sample item owned by `bob`. -/
def item1 : Item :=
  { id := "item1", type := "lost", category := "Keys", title := "Blue Keys",
    description := "a bunch of keys", location := "library",
    date := "2025-01-01", imageUrl := none, userId := "bob",
    status := "active", createdAt := 100 }

/-- A store holding the two users and the item, no conversations yet. -/
def store0 : Store :=
  { users := [("user:alice", userA), ("user:bob", userB)],
    items := [("item:item1", item1)],
    conversations := [], messages := [],
    userConversations := [], userItems := [] }

/-- The conversation between `alice` and `bob` about `item1`. -/
def conv1 : Conversation :=
  { id := "alice_bob_item1", itemId := "item1",
    participants := ["alice", "bob"], createdAt := 10, lastMessageAt := 10 }

/-- `store0` with `conv1` persisted. -/
def store1 : Store :=
  { store0 with conversations := [("conversation:alice_bob_item1", conv1)] }

/-- `store1` with `bob`'s user record missing (dangling join target). -/
def storeNoBob : Store := { store1 with users := [("user:alice", userA)] }

/-- The conversation that `createConversation "alice" "item1" 7 7 store0`
creates. -/
def convAW : Conversation :=
  { id := "alice_bob_item1", itemId := "item1",
    participants := ["alice", "bob"], createdAt := 7, lastMessageAt := 7 }

/-- A message sent by `bob` in `conv1`. -/
def msgB : Message :=
  { id := "alice_bob_item1:60:u2", conversationId := "alice_bob_item1",
    senderId := "bob", text := "yo", createdAt := 60 }

/-- Two same-millisecond messages of `conv1`: `msgA1` is sent first but its
random uuid `b` sorts after `msgA2`'s uuid `a`. -/
def msgA1 : Message :=
  { id := "alice_bob_item1:50:b", conversationId := "alice_bob_item1",
    senderId := "alice", text := "first", createdAt := 50 }

/-- The second same-millisecond message (see `msgA1`). -/
def msgA2 : Message :=
  { id := "alice_bob_item1:50:a", conversationId := "alice_bob_item1",
    senderId := "alice", text := "second", createdAt := 50 }

/-- `store1` with the two same-millisecond messages persisted. -/
def store2m : Store :=
  { store1 with
    messages := [("message:alice_bob_item1:50:b", msgA1),
                 ("message:alice_bob_item1:50:a", msgA2)] }

/-- A message of `conv1` at millisecond 50. -/
def msgT1 : Message :=
  { id := "alice_bob_item1:50:c", conversationId := "alice_bob_item1",
    senderId := "alice", text := "hi", createdAt := 50 }

/-- A later message of `conv1`, at millisecond 60. -/
def msgT2 : Message :=
  { id := "alice_bob_item1:60:d", conversationId := "alice_bob_item1",
    senderId := "bob", text := "hello", createdAt := 60 }

/-- `store1` with the two distinct-millisecond messages persisted. -/
def store2t : Store :=
  { store1 with
    messages := [("message:alice_bob_item1:50:c", msgT1),
                 ("message:alice_bob_item1:60:d", msgT2)] }

/-! ### Ordering relations on messages -/

/-- The comparator key order the message sort uses: `createdAt`, weakly. -/
def msgLe (a b : Message) : Prop := a.createdAt ≤ b.createdAt

/-- Strict `createdAt` order on messages (chronological with no ties). -/
def msgLt (a b : Message) : Prop := a.createdAt < b.createdAt

instance : DecidableRel msgLe := fun a b =>
  inferInstanceAs (Decidable (a.createdAt ≤ b.createdAt))

instance : DecidableRel msgLt := fun a b =>
  inferInstanceAs (Decidable (a.createdAt < b.createdAt))

instance : IsAntisymm Message msgLt :=
  ⟨fun _ _ h1 h2 => absurd h1 (Nat.lt_asymm h2)⟩

/-! ### KV store lemmas -/

/-- Reading after an upsert: the written key returns the new value; other
keys are unaffected. -/
theorem kvGet_kvSet (k k' : String) (v : α) (l : List (String × α)) :
    kvGet k (kvSet k' v l) = if k' == k then some v else kvGet k l := by
  induction l with
  | nil => simp [kvGet, kvSet]
  | cons hd tl ih =>
      obtain ⟨k'', v''⟩ := hd
      by_cases h1 : k'' = k'
      · subst h1
        by_cases h2 : k'' = k <;> simp [kvGet, kvSet, h2]
      · by_cases h2 : k'' = k
        · subst h2
          have h3 : ¬ k' = k'' := fun h => h1 h.symm
          simp [kvGet, kvSet, h1, h3, ih]
        · simp [kvGet, kvSet, h1, h2, ih]

/-- Upserting the same key reads back the new value. -/
theorem kvGet_kvSet_self (k : String) (v : α) (l : List (String × α)) :
    kvGet k (kvSet k v l) = some v := by
  simp [kvGet_kvSet]

/-- Upserting an absent key appends it. -/
theorem kvSet_of_get_none (k : String) (v : α) (l : List (String × α))
    (h : kvGet k l = none) : kvSet k v l = l ++ [(k, v)] := by
  induction l with
  | nil => simp [kvSet]
  | cons hd tl ih =>
      obtain ⟨k', v'⟩ := hd
      by_cases h1 : k' = k
      · subst h1; simp [kvGet] at h
      · simp only [kvGet, beq_iff_eq, if_neg h1] at h
        simp [kvSet, h1, ih h]

/-- An absent key has no stored entry. -/
theorem countKey_of_get_none (k : String) (l : List (String × α))
    (h : kvGet k l = none) : countKey k l = 0 := by
  induction l with
  | nil => simp [countKey]
  | cons hd tl ih =>
      obtain ⟨k', v'⟩ := hd
      by_cases h1 : k' = k
      · subst h1; simp [kvGet] at h
      · simp only [kvGet, beq_iff_eq, if_neg h1] at h
        simpa [countKey, h1] using ih h

/-- Upserting an absent key yields exactly one entry under it. -/
theorem countKey_kvSet_of_none (k : String) (v : α) (l : List (String × α))
    (h : kvGet k l = none) : countKey k (kvSet k v l) = 1 := by
  have h0 := countKey_of_get_none k l h
  rw [kvSet_of_get_none k v l h]
  simp only [countKey, List.filter_append] at h0 ⊢
  rcases List.length_eq_zero.mp h0 with h1
  simp [h1]

/-! ### Claims about POST /messages -/

/-- C1 counterexample: on `store1` a participant sends the empty text; the
call succeeds (no InvalidArgument) and the message is persisted, so the
store does change. -/
theorem C1_send_empty_text_accepted_cex :
    (sendMessage "alice" "alice_bob_item1" "" 50 50 "u1" store1).fst =
      Except.ok { id := "alice_bob_item1:50:u1",
                  conversationId := "alice_bob_item1", senderId := "alice",
                  text := "", createdAt := 50 } ∧
    kvGet "message:alice_bob_item1:50:u1"
        (sendMessage "alice" "alice_bob_item1" "" 50 50 "u1" store1).snd.messages =
      some { id := "alice_bob_item1:50:u1",
             conversationId := "alice_bob_item1", senderId := "alice",
             text := "", createdAt := 50 } ∧
    (sendMessage "alice" "alice_bob_item1" "" 50 50 "u1" store1).snd ≠ store1 :=
  ⟨rfl, rfl, by decide⟩

/-- C1 (amended): the send handler performs no validation of `text` at all —
every string, the empty and the whitespace-only one included, is accepted,
and the message is persisted carrying exactly that text. -/
theorem C1_send_no_text_validation (userId conversationId text : String)
    (tNow tCreated : Nat) (uuid : String) (s : Store) (conv : Conversation)
    (hconv : kvGet ("conversation:" ++ conversationId) s.conversations =
      some conv)
    (hmem : conv.participants.contains userId = true) :
    sendMessage userId conversationId text tNow tCreated uuid s =
      (Except.ok { id := msgId conversationId tNow uuid,
                   conversationId := conversationId, senderId := userId,
                   text := text, createdAt := tCreated },
       { s with
         messages :=
           kvSet ("message:" ++ msgId conversationId tNow uuid)
             { id := msgId conversationId tNow uuid,
               conversationId := conversationId, senderId := userId,
               text := text, createdAt := tCreated } s.messages,
         conversations :=
           kvSet ("conversation:" ++ conversationId)
             { conv with lastMessageAt := tCreated } s.conversations }) := by
  have hm : userId ∈ conv.participants := by simpa using hmem
  simp [sendMessage, hconv, hm]

/-- C1 witness: whitespace-only text is likewise accepted and stored. -/
theorem C1_send_no_text_validation_witness :
    (sendMessage "alice" "alice_bob_item1" " " 50 50 "u1" store1).fst =
      Except.ok { id := "alice_bob_item1:50:u1",
                  conversationId := "alice_bob_item1", senderId := "alice",
                  text := " ", createdAt := 50 } := by
  rw [C1_send_no_text_validation "alice" "alice_bob_item1" " " 50 50 "u1"
    store1 conv1 rfl rfl]
  rfl

/-- C2 counterexample: `conv1` has `lastMessageAt = createdAt = 10`; a send
whose clock reads 5 overwrites `lastMessageAt` with 5 — it moves backward
(no max is taken) and drops below the conversation's `createdAt`. -/
theorem C2_lastMessageAt_moves_backward_cex :
    kvGet "conversation:alice_bob_item1"
        (sendMessage "alice" "alice_bob_item1" "hi" 5 5 "u1"
          store1).snd.conversations =
      some { conv1 with lastMessageAt := 5 } ∧
    ({ conv1 with lastMessageAt := 5 } : Conversation).lastMessageAt <
      conv1.lastMessageAt ∧
    ({ conv1 with lastMessageAt := 5 } : Conversation).lastMessageAt <
      ({ conv1 with lastMessageAt := 5 } : Conversation).createdAt :=
  ⟨rfl, by decide, by decide⟩

/-- C2 (amended): after each successful send the stored conversation's
`lastMessageAt` equals the new message's `createdAt` — the handler assigns
it unconditionally, without taking a max — hence it is non-decreasing, and
at least the conversation's `createdAt`, exactly when the clock readings
are non-decreasing across operations. -/
theorem C2_lastMessageAt_tracks_last_send (userId conversationId text : String)
    (tNow tCreated : Nat) (uuid : String) (s : Store) (conv : Conversation)
    (hconv : kvGet ("conversation:" ++ conversationId) s.conversations =
      some conv)
    (hmem : conv.participants.contains userId = true) :
    ∃ m : Message,
      (sendMessage userId conversationId text tNow tCreated uuid s).fst =
        Except.ok m ∧
      m.createdAt = tCreated ∧
      kvGet ("conversation:" ++ conversationId)
          (sendMessage userId conversationId text tNow tCreated uuid
            s).snd.conversations =
        some { conv with lastMessageAt := m.createdAt } ∧
      (conv.lastMessageAt ≤ tCreated →
        conv.lastMessageAt ≤
          ({ conv with lastMessageAt := m.createdAt } :
            Conversation).lastMessageAt) ∧
      (conv.createdAt ≤ tCreated →
        ({ conv with lastMessageAt := m.createdAt } :
            Conversation).createdAt ≤
          ({ conv with lastMessageAt := m.createdAt } :
            Conversation).lastMessageAt) := by
  refine ⟨{ id := msgId conversationId tNow uuid,
            conversationId := conversationId, senderId := userId,
            text := text, createdAt := tCreated }, ?_, rfl, ?_, ?_, ?_⟩
  · have hm : userId ∈ conv.participants := by simpa using hmem
    simp [sendMessage, hconv, hm]
  · have hm : userId ∈ conv.participants := by simpa using hmem
    simp [sendMessage, hconv, hm, kvGet_kvSet_self]
  · intro h; simpa using h
  · intro h; simpa using h

/-- C2 witness at a concrete input: a send at time 42 on `store1`. -/
theorem C2_lastMessageAt_tracks_last_send_witness :
    ∃ m : Message,
      (sendMessage "alice" "alice_bob_item1" "hi" 42 42 "u1" store1).fst =
        Except.ok m ∧
      m.createdAt = 42 ∧
      kvGet "conversation:alice_bob_item1"
          (sendMessage "alice" "alice_bob_item1" "hi" 42 42 "u1"
            store1).snd.conversations =
        some { conv1 with lastMessageAt := m.createdAt } ∧
      (conv1.lastMessageAt ≤ 42 →
        conv1.lastMessageAt ≤
          ({ conv1 with lastMessageAt := m.createdAt } :
            Conversation).lastMessageAt) ∧
      (conv1.createdAt ≤ 42 →
        ({ conv1 with lastMessageAt := m.createdAt } :
            Conversation).createdAt ≤
          ({ conv1 with lastMessageAt := m.createdAt } :
            Conversation).lastMessageAt) :=
  C2_lastMessageAt_tracks_last_send "alice" "alice_bob_item1" "hi" 42 42
    "u1" store1 conv1 rfl rfl

/-- C6: a send whose caller is not among the conversation's participants
fails Forbidden and leaves the whole store — so in particular the messages
and the conversation record — unchanged. -/
theorem C6_send_forbidden_no_write (userId conversationId text : String)
    (tNow tCreated : Nat) (uuid : String) (s : Store) (conv : Conversation)
    (hconv : kvGet ("conversation:" ++ conversationId) s.conversations =
      some conv)
    (hmem : conv.participants.contains userId = false) :
    sendMessage userId conversationId text tNow tCreated uuid s =
      (Except.error ApiErr.forbidden, s) := by
  have hm : userId ∉ conv.participants := by simpa using hmem
  simp [sendMessage, hconv, hm]

/-- C6 witness: `carol` is not a participant of `conv1`. -/
theorem C6_send_forbidden_no_write_witness :
    sendMessage "carol" "alice_bob_item1" "hi" 5 5 "u1" store1 =
      (Except.error ApiErr.forbidden, store1) :=
  C6_send_forbidden_no_write "carol" "alice_bob_item1" "hi" 5 5 "u1" store1
    conv1 rfl rfl

/-! ### Claim about PATCH /items/:id/status -/

/-- C10: a status update by the item's owner replaces the stored item by a
copy that differs only in `status`; every other field is preserved and the
status string is accepted without any validation (the theorem holds for
every `status`). -/
theorem C10_status_update_frame (userId itemId status : String) (s : Store)
    (item : Item)
    (hitem : kvGet ("item:" ++ itemId) s.items = some item)
    (howner : item.userId = userId) :
    updateItemStatus userId itemId status s =
      (Except.ok { item with status := status },
       { s with
         items := kvSet ("item:" ++ itemId) { item with status := status }
           s.items }) ∧
    ({ item with status := status } : Item).status = status ∧
    ({ item with status := status } : Item).id = item.id ∧
    ({ item with status := status } : Item).type = item.type ∧
    ({ item with status := status } : Item).category = item.category ∧
    ({ item with status := status } : Item).title = item.title ∧
    ({ item with status := status } : Item).description = item.description ∧
    ({ item with status := status } : Item).location = item.location ∧
    ({ item with status := status } : Item).date = item.date ∧
    ({ item with status := status } : Item).imageUrl = item.imageUrl ∧
    ({ item with status := status } : Item).userId = item.userId ∧
    ({ item with status := status } : Item).createdAt = item.createdAt := by
  refine ⟨?_, rfl, rfl, rfl, rfl, rfl, rfl, rfl, rfl, rfl, rfl, rfl⟩
  simp [updateItemStatus, hitem, howner]

/-- C10 witness: `bob` marks `item1` with the unvalidated status string
`"whatever"`. -/
theorem C10_status_update_frame_witness :
    (updateItemStatus "bob" "item1" "whatever" store0).fst =
      Except.ok { item1 with status := "whatever" } := by
  rw [(C10_status_update_frame "bob" "item1" "whatever" store0 item1 rfl
    rfl).1]

/-! ### Claims about POST /conversations -/

/-- C5: starting the same conversation twice yields the same conversation id
both times; the second call returns the conversation created by the first
unchanged — its timestamps are those of the first call even though the
second call's clock reads differ — and writes nothing; exactly one
conversation record exists under the id afterwards. -/
theorem C5_startConversation_idempotent (userId itemId : String)
    (t1 t2 t3 t4 : Nat) (s : Store) (item : Item)
    (hitem : kvGet ("item:" ++ itemId) s.items = some item)
    (hnone : kvGet ("conversation:" ++
        convIdOf (sortPair userId item.userId) itemId) s.conversations =
      none) :
    ∃ conv : Conversation,
      (createConversation userId itemId t1 t2 s).fst = Except.ok conv ∧
      createConversation userId itemId t3 t4
          (createConversation userId itemId t1 t2 s).snd =
        (Except.ok conv, (createConversation userId itemId t1 t2 s).snd) ∧
      conv.id = convIdOf (sortPair userId item.userId) itemId ∧
      conv.createdAt = t1 ∧ conv.lastMessageAt = t2 ∧
      countKey ("conversation:" ++ conv.id)
        (createConversation userId itemId t1 t2 s).snd.conversations = 1 := by
  refine ⟨{ id := convIdOf (sortPair userId item.userId) itemId,
            itemId := itemId, participants := sortPair userId item.userId,
            createdAt := t1, lastMessageAt := t2 },
          ?_, ?_, rfl, rfl, rfl, ?_⟩
  · simp [createConversation, hitem, hnone]
  · simp [createConversation, hitem, hnone, kvGet_kvSet_self]
  · simp [createConversation, hitem, hnone,
      countKey_kvSet_of_none _ _ _ hnone]

/-- C5 witness: `alice` starts the conversation about `item1` twice on
`store0`, with later clock reads on the second call. -/
theorem C5_startConversation_idempotent_witness :
    ∃ conv : Conversation,
      (createConversation "alice" "item1" 20 20 store0).fst =
        Except.ok conv ∧
      createConversation "alice" "item1" 30 31
          (createConversation "alice" "item1" 20 20 store0).snd =
        (Except.ok conv, (createConversation "alice" "item1" 20 20
          store0).snd) ∧
      conv.id = convIdOf (sortPair "alice" item1.userId) "item1" ∧
      conv.createdAt = 20 ∧ conv.lastMessageAt = 20 ∧
      countKey ("conversation:" ++ conv.id)
        (createConversation "alice" "item1" 20 20
          store0).snd.conversations = 1 :=
  C5_startConversation_idempotent "alice" "item1" 20 20 30 31 store0 item1
    rfl rfl

/-- C7 counterexample: `bob` starts a conversation about his own item; the
stored participant list is `["bob", "bob"]` — two entries that are not
distinct. -/
theorem C7_self_conversation_cex :
    (createConversation "bob" "item1" 5 5 store1).fst =
      Except.ok { id := "bob_bob_item1", itemId := "item1",
                  participants := ["bob", "bob"], createdAt := 5,
                  lastMessageAt := 5 } ∧
    ¬ (["bob", "bob"] : List String).Nodup :=
  ⟨rfl, by decide⟩

/-- C7 (amended): every newly created conversation has exactly two
participant entries — the caller and the item owner, sorted — and they are
distinct precisely when the caller is not the item's owner; a
self-conversation stores the caller twice. -/
theorem C7_participants_pair (userId itemId : String) (t1 t2 : Nat)
    (s : Store) (item : Item) (c : Conversation)
    (hitem : kvGet ("item:" ++ itemId) s.items = some item)
    (hnew : kvGet ("conversation:" ++
        convIdOf (sortPair userId item.userId) itemId) s.conversations =
      none)
    (hok : (createConversation userId itemId t1 t2 s).fst = Except.ok c) :
    c.participants.length = 2 ∧
    (userId ≠ item.userId → c.participants.Nodup) := by
  have hc : c.participants = sortPair userId item.userId := by
    simp [createConversation, hitem, hnew] at hok
    rw [← hok]
  rw [hc]
  constructor
  · unfold sortPair; split <;> rfl
  · intro hne
    have hne' : item.userId ≠ userId := Ne.symm hne
    unfold sortPair; split <;> simp [hne, hne']

/-- C7 witness: `alice` (not the owner) starts a conversation about
`bob`'s item. -/
theorem C7_participants_pair_witness :
    (convAW.participants.length = 2 ∧
      ("alice" ≠ item1.userId → convAW.participants.Nodup)) ∧
    convAW.participants.Nodup :=
  ⟨C7_participants_pair "alice" "item1" 7 7 store0 item1 convAW rfl rfl rfl,
   by decide⟩

/-- C8 counterexample: the two `new Date()` reads at creation straddle a
tick (5 then 6); the stored conversation has `createdAt = 5` but
`lastMessageAt = 6` — they are not the same "now". -/
theorem C8_two_clock_reads_cex :
    (createConversation "alice" "item1" 5 6 store0).fst =
      Except.ok { id := "alice_bob_item1", itemId := "item1",
                  participants := ["alice", "bob"], createdAt := 5,
                  lastMessageAt := 6 } ∧
    ({ id := "alice_bob_item1", itemId := "item1",
       participants := ["alice", "bob"], createdAt := 5,
       lastMessageAt := 6 } : Conversation).createdAt ≠
      ({ id := "alice_bob_item1", itemId := "item1",
         participants := ["alice", "bob"], createdAt := 5,
         lastMessageAt := 6 } : Conversation).lastMessageAt :=
  ⟨rfl, by decide⟩

/-- C8 (amended): a newly created conversation takes `createdAt` from the
first clock read and `lastMessageAt` from the second — they are equal
whenever the two consecutive reads return the same time, and
`lastMessageAt ≥ createdAt` under a monotone clock — and a
user→conversation index entry is written for both participants (the caller
and the item owner). -/
theorem C8_create_fresh_record (userId itemId : String) (t1 t2 : Nat)
    (s : Store) (item : Item)
    (hitem : kvGet ("item:" ++ itemId) s.items = some item)
    (hnew : kvGet ("conversation:" ++
        convIdOf (sortPair userId item.userId) itemId) s.conversations =
      none) :
    ∃ c : Conversation,
      (createConversation userId itemId t1 t2 s).fst = Except.ok c ∧
      c.createdAt = t1 ∧ c.lastMessageAt = t2 ∧
      (t1 = t2 → c.createdAt = c.lastMessageAt) ∧
      (t1 ≤ t2 → c.createdAt ≤ c.lastMessageAt) ∧
      kvGet ("userConversation:" ++ userId ++ ":" ++ c.id)
          (createConversation userId itemId t1 t2
            s).snd.userConversations = some c.id ∧
      kvGet ("userConversation:" ++ item.userId ++ ":" ++ c.id)
          (createConversation userId itemId t1 t2
            s).snd.userConversations = some c.id ∧
      kvGet ("conversation:" ++ c.id)
          (createConversation userId itemId t1 t2 s).snd.conversations =
        some c := by
  refine ⟨{ id := convIdOf (sortPair userId item.userId) itemId,
            itemId := itemId, participants := sortPair userId item.userId,
            createdAt := t1, lastMessageAt := t2 },
          ?_, rfl, rfl, fun h => h, fun h => h, ?_, ?_, ?_⟩
  · simp [createConversation, hitem, hnew]
  · simp only [createConversation, hitem, hnew]
    rw [kvGet_kvSet]
    split
    · rfl
    · rw [kvGet_kvSet_self]
  · simp only [createConversation, hitem, hnew]
    rw [kvGet_kvSet_self]
  · simp [createConversation, hitem, hnew, kvGet_kvSet_self]

/-- C8 witness: creation on `store0` with both clock reads equal to 9. -/
theorem C8_create_fresh_record_witness :
    ∃ c : Conversation,
      (createConversation "alice" "item1" 9 9 store0).fst = Except.ok c ∧
      c.createdAt = 9 ∧ c.lastMessageAt = 9 ∧
      ((9 : Nat) = 9 → c.createdAt = c.lastMessageAt) ∧
      ((9 : Nat) ≤ 9 → c.createdAt ≤ c.lastMessageAt) ∧
      kvGet ("userConversation:" ++ "alice" ++ ":" ++ c.id)
          (createConversation "alice" "item1" 9 9
            store0).snd.userConversations = some c.id ∧
      kvGet ("userConversation:" ++ item1.userId ++ ":" ++ c.id)
          (createConversation "alice" "item1" 9 9
            store0).snd.userConversations = some c.id ∧
      kvGet ("conversation:" ++ c.id)
          (createConversation "alice" "item1" 9 9 store0).snd.conversations =
        some c :=
  C8_create_fresh_record "alice" "item1" 9 9 store0 item1 rfl rfl

/-! ### Claims about the read-side joins -/

/-- C9 counterexample: on `storeNoBob` the other participant's user record
is missing; the conversation read still succeeds but attaches the missing
user as `none` — no "Unknown" placeholder appears anywhere in the
conversation summary. -/
theorem C9_conversations_no_placeholder_cex :
    listConversationsOf "alice" ["alice_bob_item1"] storeNoBob =
      [{ conv := conv1, item := some item1, otherUser := none }] ∧
    kvGet "user:bob" storeNoBob.users = none :=
  ⟨rfl, rfl⟩

/-- C9 (amended): reads that join a user never fail because of a missing
user: the message read substitutes the placeholder "Unknown" for a missing
sender's name, while the conversation read attaches the missing other
participant as `none` — soft, but without an "Unknown" placeholder. -/
theorem C9_missing_user_soft (s : Store) (m : Message)
    (userId conversationId otherId : String) (scan : List Message)
    (conv : Conversation)
    (hconv : kvGet ("conversation:" ++ conversationId) s.conversations =
      some conv)
    (hmem : conv.participants.contains userId = true)
    (hmiss : kvGet ("user:" ++ m.senderId) s.users = none) :
    listMessagesOf userId conversationId scan s =
      Except.ok ((sortByCreated scan).map (joinSender s)) ∧
    (joinSender s m).senderName = "Unknown" ∧
    ((conv.participants.find? fun i => i != userId) = some otherId →
      kvGet ("user:" ++ otherId) s.users = none →
      joinConv userId s conversationId =
        some { conv := conv,
               item := kvGet ("item:" ++ conv.itemId) s.items,
               otherUser := none }) := by
  refine ⟨?_, ?_, ?_⟩
  · have hm : userId ∈ conv.participants := by simpa using hmem
    simp [listMessagesOf, hconv, hm]
  · simp [joinSender, hmiss]
  · intro hfind hnone2
    simp [joinConv, hconv, hfind, hnone2]

/-- C9 witness: on `storeNoBob`, `bob`'s record is gone; his message reads
back with sender name "Unknown", and the conversation view carries
`otherUser = none`. -/
theorem C9_missing_user_soft_witness :
    (listMessagesOf "alice" "alice_bob_item1" [msgB] storeNoBob =
      Except.ok ((sortByCreated [msgB]).map (joinSender storeNoBob)) ∧
    (joinSender storeNoBob msgB).senderName = "Unknown" ∧
    ((conv1.participants.find? fun i => i != "alice") = some "bob" →
      kvGet ("user:" ++ "bob") storeNoBob.users = none →
      joinConv "alice" storeNoBob "alice_bob_item1" =
        some { conv := conv1,
               item := kvGet ("item:" ++ conv1.itemId) storeNoBob.items,
               otherUser := none })) :=
  C9_missing_user_soft storeNoBob msgB "alice" "alice_bob_item1" "bob"
    [msgB] conv1 rfl rfl rfl

/-! ### Sorting lemmas for the message read -/

/-- Inserting is a permutation of consing. -/
theorem insertByCreated_perm (m : Message) (l : List Message) :
    (insertByCreated m l).Perm (m :: l) := by
  induction l with
  | nil => exact List.Perm.refl _
  | cons x xs ih =>
      unfold insertByCreated
      split
      · exact (List.Perm.cons x ih).trans (List.Perm.swap m x xs)
      · exact List.Perm.refl _

/-- The message sort permutes its input. -/
theorem sortByCreated_perm (l : List Message) : (sortByCreated l).Perm l := by
  induction l with
  | nil => exact List.Perm.refl _
  | cons x xs ih =>
      exact (insertByCreated_perm x (sortByCreated xs)).trans
        (List.Perm.cons x ih)

/-- Inserting preserves sortedness by `createdAt`. -/
theorem insertByCreated_sorted {m : Message} {l : List Message}
    (h : l.Sorted msgLe) : (insertByCreated m l).Sorted msgLe := by
  induction l with
  | nil => simp [insertByCreated]
  | cons x xs ih =>
      rw [List.sorted_cons] at h
      obtain ⟨hx, hxs⟩ := h
      unfold insertByCreated
      split
      · rename_i hlt
        rw [List.sorted_cons]
        refine ⟨?_, ih hxs⟩
        intro b hb
        rcases List.mem_cons.mp
            ((insertByCreated_perm m xs).mem_iff.mp hb) with hb | hb
        · rw [hb]; exact Nat.le_of_lt hlt
        · exact hx b hb
      · rename_i hnlt
        rw [List.sorted_cons]
        refine ⟨?_, List.sorted_cons.mpr ⟨hx, hxs⟩⟩
        intro b hb
        rcases List.mem_cons.mp hb with hb | hb
        · rw [hb]; exact Nat.le_of_not_lt hnlt
        · exact Nat.le_trans (Nat.le_of_not_lt hnlt) (hx b hb)

/-- The message sort sorts (weakly, by `createdAt` only). -/
theorem sortByCreated_sorted (l : List Message) :
    (sortByCreated l).Sorted msgLe := by
  induction l with
  | nil => simp [sortByCreated]
  | cons x xs ih => exact insertByCreated_sorted ih

/-- A weakly sorted list with pairwise-distinct timestamps is strictly
sorted. -/
theorem sorted_lt_of_sorted_le_ne {l : List Message}
    (h1 : l.Sorted msgLe)
    (h2 : l.Pairwise fun a b => a.createdAt ≠ b.createdAt) :
    l.Sorted msgLt :=
  (h1.and h2).imp fun h => Nat.lt_of_le_of_ne h.1 h.2

/-- When all timestamps are distinct there is exactly one weakly sorted
arrangement, so the sort's output is the strictly chronological list, for
every enumeration order of the input. -/
theorem sortByCreated_eq_of_perm {scan L : List Message}
    (hperm : scan.Perm L) (hL : L.Sorted msgLt) :
    sortByCreated scan = L := by
  have hp : (sortByCreated scan).Perm L := (sortByCreated_perm scan).trans hperm
  have hne : L.Pairwise fun a b => a.createdAt ≠ b.createdAt :=
    hL.imp fun h => Nat.ne_of_lt h
  have hne' : (sortByCreated scan).Pairwise
      fun a b => a.createdAt ≠ b.createdAt :=
    (List.Perm.pairwise_iff (fun h => Ne.symm h) hp).mpr hne
  have hs : (sortByCreated scan).Sorted msgLt :=
    sorted_lt_of_sorted_le_ne (sortByCreated_sorted scan) hne'
  exact List.eq_of_perm_of_sorted hp hs hL

/-! ### Claims about GET /messages/:conversationId -/

/-- C3 counterexample: `msgA1` is sent before `msgA2` within the same
millisecond (see `C4_same_ms_id_order_cex` for the sends), and both are
stored in `store2m`.  The scan order of the store is unspecified; under the
enumeration `[msgA2, msgA1]` the read returns the messages in the reverse
of the send order, and under `[msgA1, msgA2]` it returns them in an order
that disagrees with the id order (`msgA2.id < msgA1.id`) — the comparator
consults only `createdAt`, so ties are broken neither by id nor by send
order. -/
theorem C3_same_ms_reorder_cex :
    messageScan "alice_bob_item1" store2m = [msgA1, msgA2] ∧
    listMessagesOf "alice" "alice_bob_item1" [msgA2, msgA1] store2m =
      Except.ok [⟨msgA2, "Alice"⟩, ⟨msgA1, "Alice"⟩] ∧
    ([⟨msgA2, "Alice"⟩, ⟨msgA1, "Alice"⟩] : List MsgView) ≠
      [⟨msgA1, "Alice"⟩, ⟨msgA2, "Alice"⟩] ∧
    listMessagesOf "alice" "alice_bob_item1" [msgA1, msgA2] store2m =
      Except.ok [⟨msgA1, "Alice"⟩, ⟨msgA2, "Alice"⟩] ∧
    strLt msgA2.id msgA1.id = true :=
  ⟨rfl, rfl, by decide, rfl, rfl⟩

/-- C3 (amended): the read sorts the scanned messages ascending by
`createdAt` only — ties are left in the store's (unspecified) enumeration
order, not broken by id — so whenever the stored messages of the
conversation have pairwise distinct timestamps, the returned list is
exactly the chronological one, for every enumeration order the store
produces. -/
theorem C3_listMessages_chronological (userId conversationId : String)
    (s : Store) (conv : Conversation) (scan L : List Message)
    (hconv : kvGet ("conversation:" ++ conversationId) s.conversations =
      some conv)
    (hmem : conv.participants.contains userId = true)
    (hscan : scan.Perm (messageScan conversationId s))
    (hsto : (messageScan conversationId s).Perm L)
    (hL : L.Sorted msgLt) :
    listMessagesOf userId conversationId scan s =
      Except.ok (L.map (joinSender s)) := by
  have hm : userId ∈ conv.participants := by simpa using hmem
  have hsort : sortByCreated scan = L :=
    sortByCreated_eq_of_perm (hscan.trans hsto) hL
  simp [listMessagesOf, hconv, hm, hsort]

/-- C3 witness: the two distinct-millisecond messages of `store2t`, scanned
in reversed order, read back chronologically. -/
theorem C3_listMessages_chronological_witness :
    listMessagesOf "alice" "alice_bob_item1" [msgT2, msgT1] store2t =
      Except.ok ([msgT1, msgT2].map (joinSender store2t)) :=
  C3_listMessages_chronological "alice" "alice_bob_item1" store2t conv1
    [msgT2, msgT1] [msgT1, msgT2] rfl rfl
    (List.Perm.swap msgT1 msgT2 []) (List.Perm.refl _)
    (by simp [List.sorted_cons, msgLt, msgT1, msgT2])

/-! ### Decimal rendering and lexicographic-order lemmas -/

/-- With enough fuel, the fuelled digit extraction computes the standard
decimal digits. -/
theorem digitsRevFuel_eq :
    ∀ (fuel n : Nat), n ≤ fuel → digitsRevFuel fuel n = Nat.digits 10 n := by
  intro fuel
  induction fuel with
  | zero =>
      intro n hn
      have h0 : n = 0 := Nat.le_zero.mp hn
      subst h0
      simp [digitsRevFuel]
  | succ f ih =>
      intro n hn
      by_cases h0 : n = 0
      · subst h0; simp [digitsRevFuel]
      · have hpos : 0 < n := Nat.pos_of_ne_zero h0
        have hdiv : n / 10 ≤ f := by
          have h1 : n / 10 < n := Nat.div_lt_self hpos (by norm_num)
          omega
        rw [Nat.digits_def' (by norm_num : (1 : ℕ) < 10) hpos]
        simp only [digitsRevFuel, if_neg h0, ih (n / 10) hdiv]

/-- `digitsRev` agrees with Mathlib's little-endian decimal digits. -/
theorem digitsRev_eq (n : Nat) : digitsRev n = Nat.digits 10 n :=
  digitsRevFuel_eq n n (Nat.le_refl n)

/-- Digit characters compare like their digits. -/
theorem charOfDigit_lt {d1 d2 : Nat} (h : d1 < d2) (h2 : d2 < 10) :
    charOfDigit d1 < charOfDigit d2 := by
  interval_cases d2 <;> interval_cases d1 <;> decide

/-- The executable string comparison decides lexicographic order. -/
theorem charsLt_iff_lex :
    ∀ (l1 l2 : List Char), charsLt l1 l2 = true ↔ List.Lex (· < ·) l1 l2 := by
  intro l1
  induction l1 with
  | nil =>
      intro l2
      cases l2 with
      | nil =>
          constructor
          · intro h; simp [charsLt] at h
          · intro h; cases h
      | cons b bs =>
          constructor
          · intro _; exact List.Lex.nil
          · intro _; rfl
  | cons a as ih =>
      intro l2
      cases l2 with
      | nil =>
          constructor
          · intro h; simp [charsLt] at h
          · intro h; cases h
      | cons b bs =>
          constructor
          · intro h
            simp only [charsLt, Bool.or_eq_true, decide_eq_true_eq,
              Bool.and_eq_true, beq_iff_eq] at h
            rcases h with h | ⟨hab, h⟩
            · exact List.Lex.rel h
            · rw [hab]; exact List.Lex.cons ((ih bs).mp h)
          · intro h
            cases h with
            | rel h => simp [charsLt, h]
            | cons h => simp [charsLt, (ih bs).mpr h]

/-- A shared prefix preserves lexicographic order. -/
theorem lex_append_same {r : Char → Char → Prop} (p : List Char)
    {l1 l2 : List Char} (h : List.Lex r l1 l2) :
    List.Lex r (p ++ l1) (p ++ l2) := by
  induction p with
  | nil => simpa using h
  | cons c cs ih => exact List.Lex.cons ih

/-- Lexicographic order between equal-length lists survives appending
arbitrary suffixes: the order is decided strictly before the suffix. -/
theorem lex_append_of_length_eq {r : Char → Char → Prop} :
    ∀ {l1 l2 : List Char} (s1 s2 : List Char), l1.length = l2.length →
      List.Lex r l1 l2 → List.Lex r (l1 ++ s1) (l2 ++ s2) := by
  intro l1
  induction l1 with
  | nil =>
      intro l2 s1 s2 hlen h
      cases l2 with
      | nil => cases h
      | cons b bs => simp at hlen
  | cons a as ih =>
      intro l2 s1 s2 hlen h
      cases h with
      | rel h => exact List.Lex.rel h
      | cons h => exact List.Lex.cons (ih s1 s2 (by simpa using hlen) h)

/-- A digit list (all entries < 10) denotes a value below `10 ^ length`. -/
theorem ofDigits_lt_pow :
    ∀ (l : List Nat), (∀ d ∈ l, d < 10) →
      Nat.ofDigits 10 l < 10 ^ l.length := by
  intro l
  induction l with
  | nil => intro _; simp
  | cons d L ih =>
      intro h
      have hd : d < 10 := h d (List.mem_cons_self d L)
      have hL : Nat.ofDigits 10 L + 1 ≤ 10 ^ L.length :=
        ih fun x hx => h x (List.mem_cons_of_mem d hx)
      rw [Nat.ofDigits_cons, List.length_cons, pow_succ]
      calc (d : ℕ) + 10 * Nat.ofDigits 10 L
          < 10 + 10 * Nat.ofDigits 10 L := by omega
        _ = 10 * (Nat.ofDigits 10 L + 1) := by ring
        _ ≤ 10 * 10 ^ L.length := Nat.mul_le_mul_left 10 hL
        _ = 10 ^ L.length * 10 := Nat.mul_comm _ _

/-- Core comparison: two big-endian digit strings of equal length compare
lexicographically exactly as the numbers they denote.  `B1`, `B2` are
most-significant-first digit lists; their value is `ofDigits` of the
reversal. -/
theorem lex_of_valBE_lt :
    ∀ (B1 B2 : List Nat), B1.length = B2.length →
      (∀ d ∈ B1, d < 10) → (∀ d ∈ B2, d < 10) →
      Nat.ofDigits 10 B1.reverse < Nat.ofDigits 10 B2.reverse →
      List.Lex (· < ·) (B1.map charOfDigit) (B2.map charOfDigit) := by
  intro B1
  induction B1 with
  | nil =>
      intro B2 hlen _ _ hv
      cases B2 with
      | nil => simp at hv
      | cons b B => simp at hlen
  | cons a A ih =>
      intro B2 hlen h1 h2 hv
      cases B2 with
      | nil => simp at hlen
      | cons b B =>
          have hlen' : A.length = B.length := by simpa using hlen
          have hb : b < 10 := h2 b (List.mem_cons_self b B)
          rw [List.reverse_cons, List.reverse_cons, Nat.ofDigits_append,
            Nat.ofDigits_append, Nat.ofDigits_singleton,
            Nat.ofDigits_singleton, List.length_reverse,
            List.length_reverse, hlen'] at hv
          rcases Nat.lt_trichotomy a b with hab | hab | hab
          · exact List.Lex.rel (charOfDigit_lt hab hb)
          · subst hab
            refine List.Lex.cons (ih B hlen'
              (fun d hd => h1 d (List.mem_cons_of_mem a hd))
              (fun d hd => h2 d (List.mem_cons_of_mem a hd)) ?_)
            exact Nat.lt_of_add_lt_add_right hv
          · exfalso
            have hA : Nat.ofDigits 10 B.reverse < 10 ^ B.length := by
              have hbound := ofDigits_lt_pow B.reverse
                fun d hd => h2 d (List.mem_cons_of_mem b
                  (List.mem_reverse.mp hd))
              simpa [List.length_reverse] using hbound
            have h3 : 10 ^ B.length * (b + 1) ≤ 10 ^ B.length * a :=
              Nat.mul_le_mul_left _ hab
            have h4 : Nat.ofDigits 10 B.reverse + 10 ^ B.length * b <
                10 ^ B.length * (b + 1) := by
              rw [Nat.mul_succ,
                Nat.add_comm (Nat.ofDigits 10 B.reverse) (10 ^ B.length * b)]
              exact Nat.add_lt_add_left hA (10 ^ B.length * b)
            have h5 : 10 ^ B.length * a ≤
                Nat.ofDigits 10 A.reverse + 10 ^ B.length * a :=
              Nat.le_add_left _ _
            exact Nat.lt_asymm hv
              (Nat.lt_of_lt_of_le h4 (Nat.le_trans h3 h5))

/-- `digitsRev` is empty exactly for zero. -/
theorem digitsRev_eq_nil_iff (n : Nat) : digitsRev n = [] ↔ n = 0 := by
  rw [digitsRev_eq]
  exact Nat.digits_eq_nil_iff_eq_zero

/-- The character data of `natStr n` for nonzero `n`. -/
theorem natStr_data_of_ne_zero {n : Nat} (h : n ≠ 0) :
    (natStr n).data = (digitsRev n).reverse.map charOfDigit := by
  rw [natStr, if_neg h]

/-- Equal-length decimal renderings compare lexicographically like the
numbers they render. -/
theorem natStr_lex_lt {t1 t2 : Nat} (h : t1 < t2)
    (hlen : (digitsRev t1).length = (digitsRev t2).length) :
    List.Lex (· < ·) (natStr t1).data (natStr t2).data := by
  have h2pos : t2 ≠ 0 := by omega
  have h1pos : t1 ≠ 0 := by
    intro h0
    subst h0
    have hnil : digitsRev t2 = [] := by
      have : (digitsRev t2).length = 0 := by
        rw [← hlen]; simp [digitsRev, digitsRevFuel]
      exact List.length_eq_zero.mp this
    exact h2pos ((digitsRev_eq_nil_iff t2).mp hnil)
  rw [natStr_data_of_ne_zero h1pos, natStr_data_of_ne_zero h2pos]
  apply lex_of_valBE_lt
  · simpa using hlen
  · intro d hd
    rw [digitsRev_eq] at hd
    exact Nat.digits_lt_base (by norm_num) (List.mem_reverse.mp hd)
  · intro d hd
    rw [digitsRev_eq] at hd
    exact Nat.digits_lt_base (by norm_num) (List.mem_reverse.mp hd)
  · rw [List.reverse_reverse, List.reverse_reverse, digitsRev_eq,
      digitsRev_eq, Nat.ofDigits_digits, Nat.ofDigits_digits]
    exact h

/-! ### Claims about message-id ordering -/

/-- C4 counterexample: two sends in the same millisecond (`Date.now()`
reads 50 twice) draw the random uuids `"b"` and then `"a"`; the message
sent first gets id `…:50:b`, the one sent second gets `…:50:a`, and the
lexicographic order of the two ids is the reverse of the send order — the
uuid uniquifier carries no chronological information. -/
theorem C4_same_ms_id_order_cex :
    (sendMessage "alice" "alice_bob_item1" "first" 50 50 "b" store1).fst =
      Except.ok msgA1 ∧
    (sendMessage "alice" "alice_bob_item1" "second" 50 50 "a"
        (sendMessage "alice" "alice_bob_item1" "first" 50 50 "b"
          store1).snd).fst = Except.ok msgA2 ∧
    strLt msgA2.id msgA1.id = true ∧
    strLt msgA1.id msgA2.id = false :=
  ⟨rfl, rfl, rfl, rfl⟩

/-- C4 (amended): the id is `conversationId:timestamp:uuid`; for two
messages of the same conversation whose timestamps differ (and have
equal-width decimal renderings, as any two epoch-millisecond readings of
the same era do), lexicographic id order matches chronological order —
while two messages in the same millisecond are ordered by the random uuid,
which need not match send order. -/
theorem C4_id_lex_matches_chronology (conversationId uuid1 uuid2 : String)
    (t1 t2 : Nat) (hlt : t1 < t2)
    (hlen : (digitsRev t1).length = (digitsRev t2).length) :
    strLt (msgId conversationId t1 uuid1)
      (msgId conversationId t2 uuid2) = true := by
  rw [strLt, charsLt_iff_lex]
  have h2pos : t2 ≠ 0 := by omega
  have h1pos : t1 ≠ 0 := by
    intro h0
    subst h0
    have hl0 : (digitsRev t2).length = 0 := by
      rw [← hlen]; simp [digitsRev, digitsRevFuel]
    exact h2pos ((digitsRev_eq_nil_iff t2).mp (List.length_eq_zero.mp hl0))
  have hdata : ∀ (t : Nat) (u : String), (msgId conversationId t u).data =
      (conversationId ++ ":").data ++
        ((natStr t).data ++ (":" ++ u).data) := by
    intro t u
    simp [msgId, String.data_append, List.append_assoc]
  rw [hdata t1 uuid1, hdata t2 uuid2]
  apply lex_append_same
  apply lex_append_of_length_eq _ _ ?_ (natStr_lex_lt hlt hlen)
  rw [natStr_data_of_ne_zero h1pos, natStr_data_of_ne_zero h2pos]
  simpa using hlen

/-- C4 witness: timestamps 3 < 7 have equal decimal width; the earlier id
is lexicographically smaller whatever the uuids are. -/
theorem C4_id_lex_matches_chronology_witness :
    strLt (msgId "alice_bob_item1" 3 "z")
      (msgId "alice_bob_item1" 7 "a") = true :=
  C4_id_lex_matches_chronology "alice_bob_item1" "z" "a" 3 7 (by decide) rfl

end Findit
